import Mathlib

/-!
Shallow embedding of `qr2unicode.py` (class `Converter`), covering the
QR module-grid extraction pipeline of `convertQRCode` (bounding box,
block-size estimation, center-pixel sampling), the Unicode renderer, and
the input-dispatch / temporary-file orchestration.

Conventions:
* A grayscale image is a `PixelGrid`: a row-major list of rows of 8-bit
  intensities, together with `width`/`height` as reported by `img.size`.
* PIL's `pixels[x, y]` raises `IndexError` when the coordinates are out of
  range; we embed pixel access used outside the guaranteed-in-range scan as
  `Except String Nat`, errors standing for raised Python exceptions.
* Python `while` loops are embedded as fuel-indexed structural recursions,
  with fuel chosen (and proved, where a claim needs it) to dominate the
  loop's actual trip count, so that all definitions compute by `decide`/`rfl`.
-/

set_option maxRecDepth 40000

namespace Qr2Unicode

/-- A grayscale pixel grid as produced by `Image.open(...).convert('L')`:
`width`/`height` from `img.size`, `data` the row-major intensities. -/
structure PixelGrid where
  width : Nat
  height : Nat
  data : List (List Nat)
  deriving DecidableEq

/-- Raw pixel lookup `pixels[x, y]` for in-range coordinates (row `y`,
column `x`); the defaults are irrelevant whenever `x < width`, `y < height`
and the grid data is rectangular of that size. -/
def px (g : PixelGrid) (x y : Nat) : Nat :=
  (g.data.getD y []).getD x 0

/-- Bound-checked pixel access: PIL raises `IndexError` for coordinates
outside `[0, width) × [0, height)`. -/
def pixelAt (g : PixelGrid) (x y : Nat) : Except String Nat :=
  if x < g.width ∧ y < g.height then Except.ok (px g x y)
  else Except.error "image index out of range"

/-- Bounding box accumulator `(min_x, max_x, min_y, max_y)`
(src lines 129-130 initialise it to `(width, 0, height, 0)`). -/
structure BBox where
  minX : Nat
  maxX : Nat
  minY : Nat
  maxY : Nat
  deriving DecidableEq

/-- One step of the bounding-box scan (src lines 136-140): a pixel strictly
darker than the binary threshold 128 widens the box. -/
def bbStep (g : PixelGrid) (a : BBox) (p : Nat × Nat) : BBox :=
  if px g p.1 p.2 < 128 then
    ⟨min a.minX p.1, max a.maxX p.1, min a.minY p.2, max a.maxY p.2⟩
  else a

/-- Row-major traversal order of the nested loops
`for y in range(height): for x in range(width):` (src lines 133-134). -/
def coords (w h : Nat) : List (Nat × Nat) :=
  (List.range h).flatMap (fun y => (List.range w).map (fun x => (x, y)))

/-- The bounding-box scan of src lines 128-140: fold the threshold update
over every pixel in row-major order, starting from `(width, 0, height, 0)`. -/
def boundingBox (g : PixelGrid) : BBox :=
  (coords g.width g.height).foldl (bbStep g) ⟨g.width, 0, g.height, 0⟩

/-- The loop `while y < max_y and pixels[min_x, y] > 128: y += 1`
(src lines 143-145), skipping non-ink pixels down column `min_x`.
Fuel-indexed; `maxY - y` fuel is exactly the trip-count bound, and the
loop's own guard `y < maxY` makes the fuel-0 exit agree with the source. -/
def skipLightAux (g : PixelGrid) (x maxY : Nat) : Nat → Nat → Nat
  | y, 0 => y
  | y, fuel + 1 =>
    if y < maxY ∧ 128 < px g x y then skipLightAux g x maxY (y + 1) fuel else y

/-- Entry point for the skip loop with sufficient fuel. -/
def skipLight (g : PixelGrid) (x maxY y : Nat) : Nat :=
  skipLightAux g x maxY y (maxY - y)

/-- The run-length loop `while pixels[min_x, y] == 0: block_size += 1; y += 1`
(src lines 148-151). The loop has no bound check of its own: it stops either
at the first non-zero pixel or by the `IndexError` PIL raises once `y`
leaves the image, which the embedding reports as `Except.error`. Fuel
`g.height + 1 - y` dominates the trip count, so the fuel-0 branch (also an
index error) is reached only when `y` is already out of range. -/
def countRunAux (g : PixelGrid) (x : Nat) : Nat → Nat → Except String Nat
  | _, 0 => Except.error "image index out of range"
  | y, fuel + 1 =>
    if y < g.height ∧ x < g.width then
      if px g x y = 0 then
        Except.map (· + 1) (countRunAux g x (y + 1) fuel)
      else Except.ok 0
    else Except.error "image index out of range"

/-- Entry point for the run-length loop with sufficient fuel. -/
def countRun (g : PixelGrid) (x y : Nat) : Except String Nat :=
  countRunAux g x y (g.height + 1 - y)

/-- Block-size estimation (src lines 142-154): skip light pixels down the
column `x = min_x` from `y = min_y`, count the unbroken run of intensity-0
pixels, and divide the run length by 7 (integer floor division). -/
def blockSizeOf (g : PixelGrid) : Except String Nat :=
  Except.map (fun n => n / 7)
    (countRun g (boundingBox g).minX
      (skipLight g (boundingBox g).minX (boundingBox g).maxY (boundingBox g).minY))

/-- Python `range(lo, hi, step)` for a positive `step`: the values
`lo + k * step` strictly below `hi`, so `ceil((hi - lo) / step)` of them. -/
def pyRange (lo hi step : Nat) : List Nat :=
  (List.range ((hi - lo + step - 1) / step)).map (fun k => lo + k * step)

/-- Error-propagating map over a list, embedding a Python `for` loop that
appends one result per element and propagates the first raised exception. -/
def mapE (f : α → Except String β) : List α → Except String (List β)
  | [] => Except.ok []
  | a :: as =>
    match f a with
    | Except.error e => Except.error e
    | Except.ok b =>
      match mapE f as with
      | Except.error e => Except.error e
      | Except.ok bs => Except.ok (b :: bs)

/-- The extracted module matrix: the source builds rows of `1`/`0` ints with
`is_black = 1 if middle_pixel_value == 0 else 0`; we embed the flag as
`Bool` (`true` ↔ the sampled center pixel is exactly 0). -/
abbrev ModuleMatrix := List (List Bool)

/-- The sampling loops of src lines 157-165:
`for y in range(min_y, max_y, block_size): for x in range(min_x, max_x, block_size):`
sampling the single pixel `pixels[x + bs // 2, y + bs // 2]` of each block.
Python's `range` raises `ValueError` when the step is zero, and PIL raises
`IndexError` when a sampled center falls outside the image; both abort the
conversion. -/
def sampleGrid (g : PixelGrid) (bb : BBox) (bs : Nat) : Except String ModuleMatrix :=
  if bs = 0 then Except.error "range() arg 3 must not be zero"
  else
    mapE (fun y =>
      mapE (fun x =>
        Except.map (fun v => decide (v = 0)) (pixelAt g (x + bs / 2) (y + bs / 2)))
        (pyRange bb.minX bb.maxX bs))
      (pyRange bb.minY bb.maxY bs)

/-- The full extraction pipeline of src lines 128-165: bounding box, block
size, then center-pixel sampling across the box. -/
def extract (g : PixelGrid) : Except String ModuleMatrix :=
  match blockSizeOf g with
  | Except.error e => Except.error e
  | Except.ok bs => sampleGrid g (boundingBox g) bs

/-- `__black_block = '█' * 2` (src line 18). -/
def blackBlock : String := "██"

/-- `__white_block = '░' * 2` (src line 19). -/
def whiteBlock : String := "░░"

/-- The file sink (src lines 175-179): for each row write one glyph per
module with `file.write`, then write a single newline. -/
def fileOutput (m : ModuleMatrix) : String :=
  m.foldl (fun acc row =>
    (row.foldl (fun a b => a ++ (if b then blackBlock else whiteBlock)) acc) ++ "\n") ""

/-- The terminal sink (src lines 181-185): for each row print one glyph per
module with no end separator, then `print()` a newline to standard output. -/
def terminalOutput (m : ModuleMatrix) : String :=
  m.foldl (fun acc row =>
    (row.foldl (fun a b => a ++ (if b then blackBlock else whiteBlock)) acc) ++ "\n") ""

/-- The renderer as the specification words it: map filled to two U+2588 and
empty to two U+2591 characters, concatenate a row's glyphs with no
separator, terminate each row with one newline. Used to compare the
source's write loops against the spec's description. -/
def renderRowSpec : List Bool → String
  | [] => ""
  | b :: bs => (if b then blackBlock else whiteBlock) ++ renderRowSpec bs

/-- Spec-level renderer over all rows (see `renderRowSpec`). -/
def renderSpec : ModuleMatrix → String
  | [] => ""
  | r :: rs => (renderRowSpec r ++ "\n") ++ renderSpec rs

/-- The environment of one `convertQRCode` call: the externally observable
answers of the collaborators the source consults. `isFile` is
`self.input.is_file()`, `pathExists` is `self.input.exists()`, `buildTemp`
is the outcome of `__build_temp_file` (src lines 57-88): a grayscale grid
on success, the caught exception's message on failure; `writeOutput` is
the outcome of the output-writing step (src lines 174-185): opening and
writing the output file — or printing to standard output — may raise,
e.g. `IOError` on an unwritable output path, with the raised message on
failure. -/
structure Env where
  isFile : Bool
  pathExists : Bool
  buildTemp : Except String PixelGrid
  writeOutput : Except String Unit

/-- The observable outcome of `convertQRCode`: the returned
`(success, message)` pair plus whether the temp-file path was taken
(`self.__using_temp_file`) and whether `os.unlink` was reached. -/
structure ConvResult where
  success : Bool
  message : String
  usedTemp : Bool
  tempDeleted : Bool
  deriving DecidableEq

/-- The `TypeError` message raised at src line 114: `__is_image_file` is
declared with only `self` (line 96) yet the call passes `self.input` as an
extra positional argument (exact wording varies across Python versions;
only its identity as the raised error matters here). -/
def typeErrorMsg : String :=
  "Converter.__is_image_file() takes 1 positional argument but 2 were given"

/-- `ValueError` message of the dispatch else-branch (src line 123). -/
def invalidInputMsg : String :=
  "The provided input is not a valid file path and is not suitable for QR code generation."

/-- Embedding of `convertQRCode` (src lines 102-193). The whole body sits in
a `try` whose `except Exception` turns any raised exception into
`(False, str(ex))`. Control flow:
* `if self.input.is_file() and self.__is_image_file(self.input):` — when
  `is_file()` is true, evaluating the second conjunct raises `TypeError`
  (arity mismatch, see `typeErrorMsg`), so this branch always fails before
  any decoding happens;
* `elif not self.input.exists():` — set `__using_temp_file`, build the temp
  QR image (failure is re-raised as `ValueError(message)`), extract, then
  `os.unlink` the temp file and write the output;
* `else:` — raise `ValueError` (src line 123).
`os.unlink` (src line 170) runs only after extraction succeeded; any
exception raised before it jumps straight to the `except` clause. The
output write (src lines 174-185) sits inside the same `try` *after* the
unlink, so its failure is caught into `(False, str(ex))` with the temp
file already deleted. -/
def convertQRCode (env : Env) : ConvResult :=
  if env.isFile then
    ⟨false, typeErrorMsg, false, false⟩
  else if env.pathExists then
    ⟨false, invalidInputMsg, false, false⟩
  else
    match env.buildTemp with
    | Except.error m => ⟨false, m, true, false⟩
    | Except.ok g =>
      match extract g with
      | Except.error e => ⟨false, e, true, false⟩
      | Except.ok _ =>
        match env.writeOutput with
        | Except.error e => ⟨false, e, true, true⟩
        | Except.ok _ => ⟨true, "qr code successfully converted", true, true⟩

/-! Concrete grids used as counterexamples and witnesses. -/

/-- 4×18 grid whose only ink is the column `x = 2`, rows 2..15: bounding box
`(2, 2, 2, 15)`, vertical zero-run 14, hence block size 2, while the row
span 13 is odd. -/
def c2grid : PixelGrid :=
  ⟨4, 18,
    [[255, 255, 255, 255], [255, 255, 255, 255]] ++
    List.replicate 14 [255, 255, 0, 255] ++
    [[255, 255, 255, 255], [255, 255, 255, 255]]⟩

/-- 70×2 grid whose top row is a horizontal run of exactly 70 pure-black
pixels over a light second row. -/
def c5grid : PixelGrid :=
  ⟨70, 2, [List.replicate 70 0, List.replicate 70 255]⟩

/-- 1×72 grid with a vertical run of exactly 70 pure-black pixels starting
at the top-left of the bounding box. -/
def vRunGrid : PixelGrid :=
  ⟨1, 72, List.replicate 70 [0] ++ [[255], [255]]⟩

/-- 1×1 entirely light grid. -/
def whiteGrid : PixelGrid := ⟨1, 1, [[255]]⟩

/-- 4×4 light grid with a single fully-dark 2×2 square at (1,1)-(2,2). -/
def squareGrid : PixelGrid :=
  ⟨4, 4,
    [[255, 255, 255, 255],
     [255, 0, 0, 255],
     [255, 0, 0, 255],
     [255, 255, 255, 255]]⟩

/-! Helper lemmas about `mapE` and `pyRange`. -/

lemma mapE_ok_length (f : α → Except String β) :
    ∀ (l : List α) (l' : List β), mapE f l = Except.ok l' → l'.length = l.length := by
  intro l
  induction l with
  | nil =>
    intro l' h
    simp only [mapE] at h
    cases h
    rfl
  | cons a t ih =>
    intro l' h
    simp only [mapE] at h
    cases hfa : f a with
    | error e => rw [hfa] at h; cases h
    | ok b =>
      rw [hfa] at h
      cases hmt : mapE f t with
      | error e => rw [hmt] at h; cases h
      | ok bs =>
        rw [hmt] at h
        cases h
        simp [ih bs hmt]

lemma mapE_ok_mem (f : α → Except String β) :
    ∀ (l : List α) (l' : List β), mapE f l = Except.ok l' →
      ∀ b ∈ l', ∃ a ∈ l, f a = Except.ok b := by
  intro l
  induction l with
  | nil =>
    intro l' h b hb
    simp only [mapE] at h
    cases h
    cases hb
  | cons a t ih =>
    intro l' h b hb
    simp only [mapE] at h
    cases hfa : f a with
    | error e => rw [hfa] at h; cases h
    | ok b0 =>
      rw [hfa] at h
      cases hmt : mapE f t with
      | error e => rw [hmt] at h; cases h
      | ok bs =>
        rw [hmt] at h
        cases h
        rcases List.mem_cons.mp hb with hb0 | hbs
        · exact ⟨a, List.mem_cons_self a t, by rw [hfa, hb0]⟩
        · rcases ih bs hmt b hbs with ⟨a', ha', hfa'⟩
          exact ⟨a', List.mem_cons_of_mem a ha', hfa'⟩

lemma pyRange_length (lo hi step : Nat) :
    (pyRange lo hi step).length = (hi - lo + step - 1) / step := by
  simp [pyRange]

/-! Helper lemmas about the coordinate traversal and the two column loops. -/

lemma mem_coords {w h : Nat} {p : Nat × Nat} :
    p ∈ coords w h ↔ p.1 < w ∧ p.2 < h := by
  unfold coords
  simp only [List.mem_flatMap, List.mem_map, List.mem_range]
  constructor
  · rintro ⟨y, hy, x, hx, rfl⟩
    exact ⟨hx, hy⟩
  · rintro ⟨h1, h2⟩
    exact ⟨p.2, h2, p.1, h1, rfl⟩

lemma bb_foldl_id (g : PixelGrid) (l : List (Nat × Nat))
    (h : ∀ p ∈ l, ¬ px g p.1 p.2 < 128) : ∀ a : BBox, l.foldl (bbStep g) a = a := by
  induction l with
  | nil => intro a; rfl
  | cons q t ih =>
    intro a
    simp only [List.foldl_cons]
    have hq : bbStep g a q = a := by
      unfold bbStep
      rw [if_neg (h q (List.mem_cons_self q t))]
    rw [hq]
    exact ih (fun p hp => h p (List.mem_cons_of_mem q hp)) a

lemma skipLightAux_stop (g : PixelGrid) (x maxY y : Nat)
    (h : ¬ (y < maxY ∧ 128 < px g x y)) :
    ∀ fuel, skipLightAux g x maxY y fuel = y := by
  intro fuel
  cases fuel with
  | zero => rfl
  | succ f =>
    unfold skipLightAux
    rw [if_neg h]

lemma countRunAux_run (g : PixelGrid) (x : Nat) :
    ∀ (n y fuel : Nat), (∀ i < n, px g x (y + i) = 0) → y + n < g.height →
      x < g.width → px g x (y + n) ≠ 0 → n < fuel →
      countRunAux g x y fuel = Except.ok n := by
  intro n
  induction n with
  | zero =>
    intro y fuel hrun hin hx hstop hfuel
    cases fuel with
    | zero => omega
    | succ f =>
      unfold countRunAux
      rw [if_pos ⟨by omega, hx⟩, if_neg (by simpa using hstop)]
  | succ n ih =>
    intro y fuel hrun hin hx hstop hfuel
    cases fuel with
    | zero => omega
    | succ f =>
      unfold countRunAux
      rw [if_pos ⟨by omega, hx⟩, if_pos (by simpa using hrun 0 (by omega))]
      have hrec : countRunAux g x (y + 1) f = Except.ok n := by
        refine ih (y + 1) f ?_ (by omega) hx ?_ (by omega)
        · intro i hi
          have := hrun (i + 1) (by omega)
          rwa [show y + (i + 1) = y + 1 + i by omega] at this
        · have := hstop
          rwa [show y + (n + 1) = y + 1 + n by omega] at this
      rw [hrec]
      rfl

/-! Scalar views of the bounding-box fold: each `BBox` component evolves as
an independent `min`/`max` fold over the dark pixels of the traversal. -/

lemma foldl_dmin_le_init (g : PixelGrid) (f : Nat × Nat → Nat) (l : List (Nat × Nat)) :
    ∀ v : Nat, l.foldl (fun v p => if px g p.1 p.2 < 128 then min v (f p) else v) v ≤ v := by
  induction l with
  | nil => intro v; exact Nat.le_refl v
  | cons q t ih =>
    intro v
    simp only [List.foldl_cons]
    refine Nat.le_trans (ih _) ?_
    split
    · exact Nat.min_le_left _ _
    · exact Nat.le_refl v

lemma foldl_dmin_le_mem (g : PixelGrid) (f : Nat × Nat → Nat) (l : List (Nat × Nat)) :
    ∀ (v : Nat) (p : Nat × Nat), p ∈ l → px g p.1 p.2 < 128 →
      l.foldl (fun v p => if px g p.1 p.2 < 128 then min v (f p) else v) v ≤ f p := by
  induction l with
  | nil => intro v p hp; cases hp
  | cons q t ih =>
    intro v p hp hd
    simp only [List.foldl_cons]
    rcases List.mem_cons.mp hp with h | h
    · subst h
      refine Nat.le_trans (foldl_dmin_le_init g f t _) ?_
      rw [if_pos hd]
      exact Nat.min_le_right _ _
    · exact ih _ p h hd

lemma foldl_dmin_attain (g : PixelGrid) (f : Nat × Nat → Nat) (l : List (Nat × Nat)) :
    ∀ v : Nat,
      l.foldl (fun v p => if px g p.1 p.2 < 128 then min v (f p) else v) v = v ∨
      ∃ p ∈ l, px g p.1 p.2 < 128 ∧
        f p = l.foldl (fun v p => if px g p.1 p.2 < 128 then min v (f p) else v) v := by
  induction l with
  | nil => intro v; left; rfl
  | cons q t ih =>
    intro v
    simp only [List.foldl_cons]
    by_cases hq : px g q.1 q.2 < 128
    · rw [if_pos hq]
      rcases ih (min v (f q)) with h | ⟨p, hp, hd, hf⟩
      · rcases Nat.le_total v (f q) with hle | hle
        · left
          rw [h, Nat.min_eq_left hle]
        · right
          exact ⟨q, List.mem_cons_self q t, hq, by rw [h, Nat.min_eq_right hle]⟩
      · right
        exact ⟨p, List.mem_cons_of_mem q hp, hd, hf⟩
    · rw [if_neg hq]
      rcases ih v with h | ⟨p, hp, hd, hf⟩
      · left
        exact h
      · right
        exact ⟨p, List.mem_cons_of_mem q hp, hd, hf⟩

lemma foldl_dmax_init_le (g : PixelGrid) (f : Nat × Nat → Nat) (l : List (Nat × Nat)) :
    ∀ v : Nat, v ≤ l.foldl (fun v p => if px g p.1 p.2 < 128 then max v (f p) else v) v := by
  induction l with
  | nil => intro v; exact Nat.le_refl v
  | cons q t ih =>
    intro v
    simp only [List.foldl_cons]
    refine Nat.le_trans ?_ (ih _)
    split
    · exact Nat.le_max_left _ _
    · exact Nat.le_refl v

lemma foldl_dmax_mem_le (g : PixelGrid) (f : Nat × Nat → Nat) (l : List (Nat × Nat)) :
    ∀ (v : Nat) (p : Nat × Nat), p ∈ l → px g p.1 p.2 < 128 →
      f p ≤ l.foldl (fun v p => if px g p.1 p.2 < 128 then max v (f p) else v) v := by
  induction l with
  | nil => intro v p hp; cases hp
  | cons q t ih =>
    intro v p hp hd
    simp only [List.foldl_cons]
    rcases List.mem_cons.mp hp with h | h
    · subst h
      refine Nat.le_trans ?_ (foldl_dmax_init_le g f t _)
      rw [if_pos hd]
      exact Nat.le_max_right _ _
    · exact ih _ p h hd

lemma foldl_dmax_attain (g : PixelGrid) (f : Nat × Nat → Nat) (l : List (Nat × Nat)) :
    ∀ v : Nat,
      l.foldl (fun v p => if px g p.1 p.2 < 128 then max v (f p) else v) v = v ∨
      ∃ p ∈ l, px g p.1 p.2 < 128 ∧
        f p = l.foldl (fun v p => if px g p.1 p.2 < 128 then max v (f p) else v) v := by
  induction l with
  | nil => intro v; left; rfl
  | cons q t ih =>
    intro v
    simp only [List.foldl_cons]
    by_cases hq : px g q.1 q.2 < 128
    · rw [if_pos hq]
      rcases ih (max v (f q)) with h | ⟨p, hp, hd, hf⟩
      · rcases Nat.le_total v (f q) with hle | hle
        · right
          exact ⟨q, List.mem_cons_self q t, hq, by rw [h, Nat.max_eq_right hle]⟩
        · left
          rw [h, Nat.max_eq_left hle]
      · right
        exact ⟨p, List.mem_cons_of_mem q hp, hd, hf⟩
    · rw [if_neg hq]
      rcases ih v with h | ⟨p, hp, hd, hf⟩
      · left
        exact h
      · right
        exact ⟨p, List.mem_cons_of_mem q hp, hd, hf⟩

lemma bb_foldl_minX (g : PixelGrid) (l : List (Nat × Nat)) :
    ∀ a : BBox, (l.foldl (bbStep g) a).minX =
      l.foldl (fun v p => if px g p.1 p.2 < 128 then min v p.1 else v) a.minX := by
  induction l with
  | nil => intro a; rfl
  | cons q t ih =>
    intro a
    simp only [List.foldl_cons, ih]
    congr 1
    unfold bbStep
    split <;> rfl

lemma bb_foldl_maxX (g : PixelGrid) (l : List (Nat × Nat)) :
    ∀ a : BBox, (l.foldl (bbStep g) a).maxX =
      l.foldl (fun v p => if px g p.1 p.2 < 128 then max v p.1 else v) a.maxX := by
  induction l with
  | nil => intro a; rfl
  | cons q t ih =>
    intro a
    simp only [List.foldl_cons, ih]
    congr 1
    unfold bbStep
    split <;> rfl

lemma bb_foldl_minY (g : PixelGrid) (l : List (Nat × Nat)) :
    ∀ a : BBox, (l.foldl (bbStep g) a).minY =
      l.foldl (fun v p => if px g p.1 p.2 < 128 then min v p.2 else v) a.minY := by
  induction l with
  | nil => intro a; rfl
  | cons q t ih =>
    intro a
    simp only [List.foldl_cons, ih]
    congr 1
    unfold bbStep
    split <;> rfl

lemma bb_foldl_maxY (g : PixelGrid) (l : List (Nat × Nat)) :
    ∀ a : BBox, (l.foldl (bbStep g) a).maxY =
      l.foldl (fun v p => if px g p.1 p.2 < 128 then max v p.2 else v) a.maxY := by
  induction l with
  | nil => intro a; rfl
  | cons q t ih =>
    intro a
    simp only [List.foldl_cons, ih]
    congr 1
    unfold bbStep
    split <;> rfl

/-! Helper lemmas about the renderer. -/

lemma row_foldl_append (row : List Bool) :
    ∀ a : String,
      row.foldl (fun s b => s ++ (if b then blackBlock else whiteBlock)) a =
        a ++ renderRowSpec row := by
  induction row with
  | nil => intro a; simp [renderRowSpec]
  | cons b t ih =>
    intro a
    simp only [List.foldl_cons, renderRowSpec, ih, String.append_assoc]

lemma matrix_foldl_append (m : ModuleMatrix) :
    ∀ a : String,
      m.foldl (fun acc row =>
        (row.foldl (fun s b => s ++ (if b then blackBlock else whiteBlock)) acc) ++ "\n") a =
        a ++ renderSpec m := by
  induction m with
  | nil => intro a; simp [renderSpec]
  | cons r rs ih =>
    intro a
    simp only [List.foldl_cons]
    rw [ih, row_foldl_append]
    simp only [renderSpec, String.append_assoc]

/-! Claim theorems: dispatch, orchestration, renderer. -/

/-- Claim C1 (code bug): whenever the input names an existing file — in
particular an existing image file — the dispatch call
`self.__is_image_file(self.input)` (src line 114) raises `TypeError`
because `__is_image_file` is declared taking only `self` (src line 96), so
`convertQRCode` returns a failure without ever decoding the image, contrary
to the claim that such inputs decode and complete successfully. -/
theorem image_path_type_error (e : Bool) (bt : Except String PixelGrid)
    (w : Except String Unit) :
    convertQRCode ⟨true, e, bt, w⟩ = ⟨false, typeErrorMsg, false, false⟩ := rfl

/-- Claim C3 (counterexample): a text-to-QR invocation whose extraction
fails (here: the rasterizer hands back an all-light grid) takes the
temp-file path but never reaches the `os.unlink` of src line 170, so the
temporary file is not deleted on this failing exit path. -/
theorem temp_file_leak_cex :
    (convertQRCode ⟨false, false, Except.ok whiteGrid, Except.ok ()⟩).usedTemp = true ∧
    (convertQRCode ⟨false, false, Except.ok whiteGrid, Except.ok ()⟩).success = false ∧
    (convertQRCode ⟨false, false, Except.ok whiteGrid, Except.ok ()⟩).tempDeleted = false :=
  ⟨rfl, rfl, rfl⟩

/-- Claim C3 (amended): the temporary rasterized image file is deleted
exactly on the runs that take the text-to-QR path and whose extraction
succeeds — regardless of whether the subsequent output write succeeds or
raises. On every exit path that fails before or during extraction
(temp-file build failure or any exception inside extraction) the deletion
at src line 170 is skipped and the file leaks; a failure in the output
write (src lines 174-185, after the unlink, inside the same `try`) still
leaves the temp file deleted even though `(False, message)` is returned. -/
theorem temp_file_deleted_iff (env : Env) :
    (convertQRCode env).tempDeleted = true ↔
      (env.isFile = false ∧ env.pathExists = false ∧
        ∃ g, env.buildTemp = Except.ok g ∧ ∃ m, extract g = Except.ok m) := by
  rcases env with ⟨f, e, bt, w⟩
  cases f
  · cases e
    · cases bt with
      | error m => simp [convertQRCode]
      | ok g =>
        cases hx : extract g with
        | error er => simp [convertQRCode, hx]
        | ok mm =>
          cases w with
          | error we => simp [convertQRCode, hx]
          | ok wu => simp [convertQRCode, hx]
    · simp [convertQRCode]
  · simp [convertQRCode]

/-- Claim C6: the rendered output maps each filled module to two U+2588
characters and each empty module to two U+2591 characters, concatenated
within a row with no separator and each row terminated by one newline
(`renderSpec` is that description verbatim); in particular the 2×2 matrix
`[[true, false], [false, true]]` renders exactly as `"██░░\n░░██\n"`. -/
theorem render_fidelity :
    (∀ m : ModuleMatrix, fileOutput m = renderSpec m) ∧
    fileOutput [[true, false], [false, true]] = "██░░\n░░██\n" := by
  constructor
  · intro m
    unfold fileOutput
    rw [matrix_foldl_append]
    exact String.empty_append _
  · rfl

/-- Claim C8: the text written by the file output sink (src lines 175-179)
and the text written to standard output (src lines 181-185) are identical
character for character for every module matrix. -/
theorem sinks_interchangeable : ∀ m : ModuleMatrix, fileOutput m = terminalOutput m :=
  fun _ => rfl

/-- Claim C9: `convertQRCode` is total — every raised exception is caught by
the blanket `except` (src lines 189-191) and turned into the returned
`(success, message)` pair, with the success message on success and the
exception text otherwise. Totality of the embedding rests on the proved
termination of the embedded `while` loops. -/
theorem convert_total (env : Env) :
    ((convertQRCode env).success = true ∧
      (convertQRCode env).message = "qr code successfully converted") ∨
    (convertQRCode env).success = false := by
  rcases env with ⟨f, e, bt, w⟩
  cases f
  · cases e
    · cases bt with
      | error m => right; rfl
      | ok g =>
        cases hx : extract g with
        | error er => right; simp [convertQRCode, hx]
        | ok mm =>
          cases w with
          | error we => right; simp [convertQRCode, hx]
          | ok wu => left; constructor <;> simp [convertQRCode, hx]
    · right; rfl
  · right; rfl

/-- Claim C2 (counterexample): for `c2grid` the bounding box is
`(2, 2, 2, 15)` and the block size is 2, so the row span 13 is not a
multiple of 2; the extracted matrix has 7 rows, not `floor(13 / 2) = 6`:
Python's half-open `range` keeps the final partial block instead of
dropping it. -/
theorem partial_block_row_count_cex :
    boundingBox c2grid = ⟨2, 2, 2, 15⟩ ∧
    blockSizeOf c2grid = Except.ok 2 ∧
    extract c2grid = Except.ok (List.replicate 7 []) ∧
    (List.replicate 7 ([] : List Bool)).length ≠
      ((boundingBox c2grid).maxY - (boundingBox c2grid).minY) / 2 :=
  ⟨rfl, rfl, rfl, by decide⟩

/-- Claim C2 (amended): when extraction succeeds with block size `bs`, the
matrix has exactly `ceil((max_y - min_y) / bs)` rows and each row
`ceil((max_x - min_x) / bs)` columns — the final partial block is included
(sampled at its center), not dropped and not padded. -/
theorem extract_row_col_count (g : PixelGrid) (m : ModuleMatrix) (bs : Nat)
    (hbs : blockSizeOf g = Except.ok bs) (hm : extract g = Except.ok m) :
    m.length = ((boundingBox g).maxY - (boundingBox g).minY + bs - 1) / bs ∧
    ∀ row ∈ m, row.length = ((boundingBox g).maxX - (boundingBox g).minX + bs - 1) / bs := by
  have hsg : sampleGrid g (boundingBox g) bs = Except.ok m := by
    unfold extract at hm
    rw [hbs] at hm
    exact hm
  unfold sampleGrid at hsg
  by_cases h0 : bs = 0
  · rw [if_pos h0] at hsg; cases hsg
  · rw [if_neg h0] at hsg
    constructor
    · rw [mapE_ok_length _ _ _ hsg, pyRange_length]
    · intro row hrow
      rcases mapE_ok_mem _ _ _ hsg row hrow with ⟨y, _, hy⟩
      rw [mapE_ok_length _ _ _ hy, pyRange_length]

/-- Closed witness for `extract_row_col_count` at `c2grid`. -/
theorem extract_row_col_count_witness :
    blockSizeOf c2grid = Except.ok 2 ∧
    extract c2grid = Except.ok (List.replicate 7 []) ∧
    ((List.replicate 7 ([] : List Bool)).length =
        ((boundingBox c2grid).maxY - (boundingBox c2grid).minY + 2 - 1) / 2 ∧
      ∀ row ∈ (List.replicate 7 ([] : List Bool)),
        row.length = ((boundingBox c2grid).maxX - (boundingBox c2grid).minX + 2 - 1) / 2) :=
  ⟨rfl, rfl, extract_row_col_count c2grid (List.replicate 7 []) 2 rfl rfl⟩

/-- Claim C10: every matrix produced by extraction is rectangular — each row
has length `|range(min_x, max_x, bs)|`, the number of block-size steps in
the half-open range from `min_x` to `max_x`. -/
theorem extract_rectangular (g : PixelGrid) (m : ModuleMatrix) (bs : Nat)
    (hbs : blockSizeOf g = Except.ok bs) (hm : extract g = Except.ok m) :
    ∀ row ∈ m,
      row.length = (pyRange (boundingBox g).minX (boundingBox g).maxX bs).length := by
  have hsg : sampleGrid g (boundingBox g) bs = Except.ok m := by
    unfold extract at hm
    rw [hbs] at hm
    exact hm
  unfold sampleGrid at hsg
  by_cases h0 : bs = 0
  · rw [if_pos h0] at hsg; cases hsg
  · rw [if_neg h0] at hsg
    intro row hrow
    rcases mapE_ok_mem _ _ _ hsg row hrow with ⟨y, _, hy⟩
    exact mapE_ok_length _ _ _ hy

/-- Closed witness for `extract_rectangular` at `c2grid`. -/
theorem extract_rectangular_witness :
    blockSizeOf c2grid = Except.ok 2 ∧
    extract c2grid = Except.ok (List.replicate 7 []) ∧
    ∀ row ∈ (List.replicate 7 ([] : List Bool)),
      row.length = (pyRange (boundingBox c2grid).minX (boundingBox c2grid).maxX 2).length :=
  ⟨rfl, rfl, extract_rectangular c2grid (List.replicate 7 []) 2 rfl rfl⟩

/-- Claim C4: on an entirely light grid (no pixel with intensity below 128)
extraction fails as a reported error — the run-length loop's pixel access
leaves the image and the resulting `IndexError` is caught — and
`convertQRCode` returns a failure pair instead of letting any fault
(division or range step by zero included) reach the caller. -/
theorem all_light_extraction_fails (g : PixelGrid)
    (h : ∀ x < g.width, ∀ y < g.height, 128 ≤ px g x y) :
    extract g = Except.error "image index out of range" ∧
    ∀ w : Except String Unit,
      convertQRCode ⟨false, false, Except.ok g, w⟩ =
        ⟨false, "image index out of range", true, false⟩ := by
  have hbb : boundingBox g = ⟨g.width, 0, g.height, 0⟩ := by
    unfold boundingBox
    exact bb_foldl_id g _
      (fun p hp => by
        have hm := mem_coords.mp hp
        have := h p.1 hm.1 p.2 hm.2
        omega) _
  have hsk : skipLight g g.width 0 g.height = g.height := by
    unfold skipLight
    exact skipLightAux_stop g g.width 0 g.height (by omega) _
  have hcr : countRun g g.width g.height = Except.error "image index out of range" := by
    unfold countRun
    rw [show g.height + 1 - g.height = 1 by omega]
    unfold countRunAux
    rw [if_neg (by omega)]
  have hbs : blockSizeOf g = Except.error "image index out of range" := by
    have hshape : blockSizeOf g =
        Except.map (fun n => n / 7) (countRun g g.width (skipLight g g.width 0 g.height)) := by
      unfold blockSizeOf
      rw [hbb]
    rw [hshape, hsk, hcr]
    rfl
  have hex : extract g = Except.error "image index out of range" := by
    unfold extract
    rw [hbs]
  refine ⟨hex, ?_⟩
  intro w
  show (match extract g with
        | Except.error e => (⟨false, e, true, false⟩ : ConvResult)
        | Except.ok _ =>
          match w with
          | Except.error e => ⟨false, e, true, true⟩
          | Except.ok _ => ⟨true, "qr code successfully converted", true, true⟩) =
      ⟨false, "image index out of range", true, false⟩
  rw [hex]

/-- Closed witness for `all_light_extraction_fails` at the 1×1 light grid. -/
theorem all_light_extraction_fails_witness :
    (∀ x < whiteGrid.width, ∀ y < whiteGrid.height, 128 ≤ px whiteGrid x y) ∧
    extract whiteGrid = Except.error "image index out of range" ∧
    convertQRCode ⟨false, false, Except.ok whiteGrid, Except.ok ()⟩ =
      ⟨false, "image index out of range", true, false⟩ :=
  ⟨by decide,
    (all_light_extraction_fails whiteGrid (by decide)).1,
    (all_light_extraction_fails whiteGrid (by decide)).2 (Except.ok ())⟩

/-- Claim C5 (counterexample): `c5grid` has a horizontal dark run of exactly
70 pure-black pixels at the top-left of its bounding box, yet the computed
block size is `0`, not `10`: the source counts the run *vertically* down the
column `x = min_x` (src lines 148-151), and that vertical run has length 1,
so `1 // 7 = 0` and sampling then fails on the zero `range` step. -/
theorem horizontal_run_block_size_cex :
    boundingBox c5grid = ⟨0, 69, 0, 0⟩ ∧
    (∀ x < 70, px c5grid x 0 = 0) ∧
    blockSizeOf c5grid = Except.ok 0 ∧
    extract c5grid = Except.error "range() arg 3 must not be zero" :=
  ⟨rfl, by decide, rfl, rfl⟩

/-- Claim C5 (amended): the block size is the length of the first unbroken
run of intensity-0 pixels counted *vertically* down the column `x = min_x`
(starting at the first ink pixel at or below `min_y`), floor-divided by 7;
in particular a vertical run of exactly 70 pure-black pixels starting at
the bounding box's top-left yields block size `70 // 7 = 10`. -/
theorem vertical_run_block_size (g : PixelGrid)
    (hx : (boundingBox g).minX < g.width)
    (hrun : ∀ i < 70, px g (boundingBox g).minX ((boundingBox g).minY + i) = 0)
    (hin : (boundingBox g).minY + 70 < g.height)
    (hstop : px g (boundingBox g).minX ((boundingBox g).minY + 70) ≠ 0) :
    blockSizeOf g = Except.ok 10 := by
  have h0 : px g (boundingBox g).minX (boundingBox g).minY = 0 := by
    have := hrun 0 (by omega)
    simpa using this
  have hsk : skipLight g (boundingBox g).minX (boundingBox g).maxY (boundingBox g).minY =
      (boundingBox g).minY := by
    unfold skipLight
    exact skipLightAux_stop g _ _ _ (by rw [h0]; omega) _
  have hcr : countRun g (boundingBox g).minX (boundingBox g).minY = Except.ok 70 := by
    unfold countRun
    exact countRunAux_run g _ 70 _ _ hrun hin hx hstop (by omega)
  unfold blockSizeOf
  rw [hsk, hcr]
  rfl

/-- Claim C7: for every grid with at least one dark pixel (a pixel of
intensity strictly below 128 at in-range coordinates), the computed
bounding box is exactly the smallest axis-aligned rectangle containing all
dark pixels: it contains every dark pixel, and each of its four bounds is
attained by some dark pixel. In particular, for a single fully-dark N×N
square on a light background it equals the square's coordinates. -/
theorem bounding_box_smallest (g : PixelGrid) (x0 y0 : Nat)
    (hx0 : x0 < g.width) (hy0 : y0 < g.height) (hd0 : px g x0 y0 < 128) :
    (∀ x y, x < g.width → y < g.height → px g x y < 128 →
      (boundingBox g).minX ≤ x ∧ x ≤ (boundingBox g).maxX ∧
      (boundingBox g).minY ≤ y ∧ y ≤ (boundingBox g).maxY) ∧
    (∃ y, y < g.height ∧ px g (boundingBox g).minX y < 128) ∧
    (∃ y, y < g.height ∧ px g (boundingBox g).maxX y < 128) ∧
    (∃ x, x < g.width ∧ px g x (boundingBox g).minY < 128) ∧
    (∃ x, x < g.width ∧ px g x (boundingBox g).maxY < 128) := by
  have h0 : ((x0, y0) : Nat × Nat) ∈ coords g.width g.height := mem_coords.mpr ⟨hx0, hy0⟩
  have eminX : (boundingBox g).minX =
      (coords g.width g.height).foldl
        (fun v p => if px g p.1 p.2 < 128 then min v p.1 else v) g.width :=
    bb_foldl_minX g (coords g.width g.height) ⟨g.width, 0, g.height, 0⟩
  have emaxX : (boundingBox g).maxX =
      (coords g.width g.height).foldl
        (fun v p => if px g p.1 p.2 < 128 then max v p.1 else v) 0 :=
    bb_foldl_maxX g (coords g.width g.height) ⟨g.width, 0, g.height, 0⟩
  have eminY : (boundingBox g).minY =
      (coords g.width g.height).foldl
        (fun v p => if px g p.1 p.2 < 128 then min v p.2 else v) g.height :=
    bb_foldl_minY g (coords g.width g.height) ⟨g.width, 0, g.height, 0⟩
  have emaxY : (boundingBox g).maxY =
      (coords g.width g.height).foldl
        (fun v p => if px g p.1 p.2 < 128 then max v p.2 else v) 0 :=
    bb_foldl_maxY g (coords g.width g.height) ⟨g.width, 0, g.height, 0⟩
  refine ⟨?_, ?_, ?_, ?_, ?_⟩
  · intro x y hx hy hd
    have hmem : ((x, y) : Nat × Nat) ∈ coords g.width g.height := mem_coords.mpr ⟨hx, hy⟩
    refine ⟨?_, ?_, ?_, ?_⟩
    · rw [eminX]
      exact foldl_dmin_le_mem g Prod.fst _ g.width (x, y) hmem hd
    · rw [emaxX]
      exact foldl_dmax_mem_le g Prod.fst _ 0 (x, y) hmem hd
    · rw [eminY]
      exact foldl_dmin_le_mem g Prod.snd _ g.height (x, y) hmem hd
    · rw [emaxY]
      exact foldl_dmax_mem_le g Prod.snd _ 0 (x, y) hmem hd
  · rcases foldl_dmin_attain g Prod.fst (coords g.width g.height) g.width with h | ⟨p, hp, hd, hf⟩
    · exfalso
      have hle := foldl_dmin_le_mem g Prod.fst (coords g.width g.height) g.width (x0, y0) h0 hd0
      rw [h] at hle
      omega
    · refine ⟨p.2, (mem_coords.mp hp).2, ?_⟩
      rw [eminX, ← hf]
      exact hd
  · rcases foldl_dmax_attain g Prod.fst (coords g.width g.height) 0 with h | ⟨p, hp, hd, hf⟩
    · have hge := foldl_dmax_mem_le g Prod.fst (coords g.width g.height) 0 (x0, y0) h0 hd0
      rw [h] at hge
      refine ⟨y0, hy0, ?_⟩
      rw [emaxX, h, show (0 : Nat) = x0 by omega]
      exact hd0
    · refine ⟨p.2, (mem_coords.mp hp).2, ?_⟩
      rw [emaxX, ← hf]
      exact hd
  · rcases foldl_dmin_attain g Prod.snd (coords g.width g.height) g.height with h | ⟨p, hp, hd, hf⟩
    · exfalso
      have hle := foldl_dmin_le_mem g Prod.snd (coords g.width g.height) g.height (x0, y0) h0 hd0
      rw [h] at hle
      omega
    · refine ⟨p.1, (mem_coords.mp hp).1, ?_⟩
      rw [eminY, ← hf]
      exact hd
  · rcases foldl_dmax_attain g Prod.snd (coords g.width g.height) 0 with h | ⟨p, hp, hd, hf⟩
    · have hge := foldl_dmax_mem_le g Prod.snd (coords g.width g.height) 0 (x0, y0) h0 hd0
      rw [h] at hge
      refine ⟨x0, hx0, ?_⟩
      rw [emaxY, h, show (0 : Nat) = y0 by omega]
      exact hd0
    · refine ⟨p.1, (mem_coords.mp hp).1, ?_⟩
      rw [emaxY, ← hf]
      exact hd

/-- Closed witness for `bounding_box_smallest` at `squareGrid`, whose single
fully-dark 2×2 square occupies (1,1)-(2,2). -/
theorem bounding_box_smallest_witness :
    (1 < squareGrid.width ∧ 1 < squareGrid.height ∧ px squareGrid 1 1 < 128) ∧
    ((∀ x y, x < squareGrid.width → y < squareGrid.height → px squareGrid x y < 128 →
        (boundingBox squareGrid).minX ≤ x ∧ x ≤ (boundingBox squareGrid).maxX ∧
        (boundingBox squareGrid).minY ≤ y ∧ y ≤ (boundingBox squareGrid).maxY) ∧
      (∃ y, y < squareGrid.height ∧ px squareGrid (boundingBox squareGrid).minX y < 128) ∧
      (∃ y, y < squareGrid.height ∧ px squareGrid (boundingBox squareGrid).maxX y < 128) ∧
      (∃ x, x < squareGrid.width ∧ px squareGrid x (boundingBox squareGrid).minY < 128) ∧
      (∃ x, x < squareGrid.width ∧ px squareGrid x (boundingBox squareGrid).maxY < 128)) :=
  ⟨⟨by decide, by decide, by decide⟩,
    bounding_box_smallest squareGrid 1 1 (by decide) (by decide) (by decide)⟩

/-- Closed witness for `vertical_run_block_size` at `vRunGrid`. -/
theorem vertical_run_block_size_witness :
    ((boundingBox vRunGrid).minX < vRunGrid.width ∧
      (∀ i < 70, px vRunGrid (boundingBox vRunGrid).minX ((boundingBox vRunGrid).minY + i) = 0) ∧
      (boundingBox vRunGrid).minY + 70 < vRunGrid.height ∧
      px vRunGrid (boundingBox vRunGrid).minX ((boundingBox vRunGrid).minY + 70) ≠ 0) ∧
    blockSizeOf vRunGrid = Except.ok 10 :=
  ⟨⟨by decide, by decide, by decide, by decide⟩,
    vertical_run_block_size vRunGrid (by decide) (by decide) (by decide) (by decide)⟩

end Qr2Unicode
